import Mathlib

/-!
Verification of the interactive raster mask editor (media/editor.js) against
its natural-language specification.

Embedding conventions:
* Canvas 2D pixel surfaces are modelled as total functions over integer pixel
  coordinates into premultiplied RGBA pixels with rational channel values
  (the canvas stores premultiplied data internally; the premultiplied
  Porter-Duff composite formulas are division-free).
* All full-canvas rectangle operations (clearRect / fillRect / drawImage at
  the canvas size) act on the whole plane: every buffer in the source is
  always exactly canvas-sized and all such calls cover the full buffer.
* drawImage with a destination rectangle samples the source at the integer
  source coordinate obtained by mapping the destination pixel center back
  through the scale, taking the floor (nearest-texel sampling; stroke
  rasterization is likewise modelled as exact geometric coverage of the
  round-capped segment, with the fully opaque white paint the source uses).
* Pointer coordinates are taken directly in canvas pixel space
  (getCanvasPos only converts from CSS space to canvas space).
* Decoding an image (dataURLToImage) is modelled by its outcome: an
  Option-valued input, none standing for a decode failure.
-/

/-- A premultiplied RGBA pixel with rational channels. -/
structure Pixel where
  r : ℚ
  g : ℚ
  b : ℚ
  a : ℚ
deriving DecidableEq, Repr

/-- The fully transparent pixel (canvas cleared state). -/
def Pixel.clear : Pixel := ⟨0, 0, 0, 0⟩

/-- Fully opaque white, premultiplied. -/
def Pixel.white : Pixel := ⟨1, 1, 1, 1⟩

/-- A pixel surface: premultiplied RGBA value at every integer coordinate. -/
def Raster : Type := ℤ → ℤ → Pixel

/-- The fully transparent surface (freshly created or cleared canvas). -/
def blankRaster : Raster := fun _ _ => Pixel.clear

/-- Porter-Duff source-over on premultiplied pixels: Co = Cs + Cd(1 - as). -/
def pdSourceOver (s d : Pixel) : Pixel :=
  ⟨s.r + d.r * (1 - s.a), s.g + d.g * (1 - s.a), s.b + d.b * (1 - s.a),
   s.a + d.a * (1 - s.a)⟩

/-- Porter-Duff destination-out on premultiplied pixels: Co = Cd(1 - as). -/
def pdDestOut (s d : Pixel) : Pixel :=
  ⟨d.r * (1 - s.a), d.g * (1 - s.a), d.b * (1 - s.a), d.a * (1 - s.a)⟩

/-- Porter-Duff destination-in on premultiplied pixels: Co = Cd * as. -/
def pdDestIn (s d : Pixel) : Pixel :=
  ⟨d.r * s.a, d.g * s.a, d.b * s.a, d.a * s.a⟩

/-- Porter-Duff source-in on premultiplied pixels: Co = Cs * ad. -/
def pdSourceIn (s d : Pixel) : Pixel :=
  ⟨s.r * d.a, s.g * d.a, s.b * d.a, s.a * d.a⟩

/-- A loaded HTMLImageElement: its pixel data and intrinsic dimensions. -/
structure Img where
  pix : Raster
  w : ℤ
  h : ℤ

/-- Destination rectangle as computed by coverRect. -/
structure CRect where
  dx : ℚ
  dy : ℚ
  dw : ℚ
  dh : ℚ

/-- coverRect from editor.js: aspect-preserving cover scale, centered. -/
def coverRect (srcW srcH dstW dstH : ℚ) : CRect :=
  let r := max (dstW / srcW) (dstH / srcH)
  let w := srcW * r
  let h := srcH * r
  ⟨(dstW - w) / 2, (dstH - h) / 2, w, h⟩

/-- Sample an image drawn into the rectangle [dx, dx+dw) x [dy, dy+dh):
the destination pixel center is mapped back through the scale and the
source is read at the floor of the resulting source coordinates; outside
the rectangle nothing is painted. -/
def sampleCover (img : Img) (dx dy dw dh : ℚ) (x y : ℤ) : Pixel :=
  let cx : ℚ := (x : ℚ) + 1/2
  let cy : ℚ := (y : ℚ) + 1/2
  if dx ≤ cx ∧ cx < dx + dw ∧ dy ≤ cy ∧ cy < dy + dh then
    img.pix ⌊(cx - dx) * (img.w : ℚ) / dw⌋ ⌊(cy - dy) * (img.h : ℚ) / dh⌋
  else Pixel.clear

/-- ctx.drawImage(img, dx, dy, dw, dh) with source-over composition. -/
def drawImageRect (img : Img) (dx dy dw dh : ℚ) (dst : Raster) : Raster :=
  fun x y => pdSourceOver (sampleCover img dx dy dw dh x y) (dst x y)

/-- initMaskFromCutout from editor.js: clear, draw the cutout source-over at
canvas size, then fill white with source-in, which keeps the cutout's alpha
and replaces its colors by white. -/
def initMaskFromCutout (img : Img) (W H : ℤ) : Raster :=
  let m1 := drawImageRect img 0 0 (W : ℚ) (H : ℚ) blankRaster
  fun x y => pdSourceIn Pixel.white (m1 x y)

/-- Squared distance from point (px, py) to the segment (x0,y0)-(x1,y1). -/
def segDistSq (x0 y0 x1 y1 px py : ℚ) : ℚ :=
  let dx := x1 - x0
  let dy := y1 - y0
  let l2 := dx ^ 2 + dy ^ 2
  if l2 = 0 then (px - x0) ^ 2 + (py - y0) ^ 2
  else
    let t := max 0 (min 1 (((px - x0) * dx + (py - y0) * dy) / l2))
    (px - (x0 + t * dx)) ^ 2 + (py - (y0 + t * dy)) ^ 2

/-- Pixel (x, y) is covered by the round-capped stroke segment of radius r:
its center lies within distance r of the segment. -/
def inCapsule (x0 y0 x1 y1 r : ℚ) (x y : ℤ) : Bool :=
  decide (segDistSq x0 y0 x1 y1 ((x : ℚ) + 1/2) ((y : ℚ) + 1/2) ≤ r ^ 2)

/-- Pixel (x, y) lies in the disc of radius r centered at (cx, cy). -/
def inCircle (cx cy r : ℚ) (x y : ℤ) : Bool :=
  decide ((((x : ℚ) + 1/2) - cx) ^ 2 + (((y : ℚ) + 1/2) - cy) ^ 2 ≤ r ^ 2)

/-- The two edit modes. -/
inductive Mode where
  | erase
  | restore
deriving DecidableEq, Repr

/-- Messages the webview posts to the host extension. -/
inductive Encoded where
  | png (img : Raster)

/-- encode the flattened canvas as PNG (out.toDataURL with image/png). -/
def encodePNG (r : Raster) : Encoded := Encoded.png r

/-- Message types posted via vscode.postMessage. -/
inductive HostMsg where
  | acceptPngDataUrl (payload : Encoded)
  | cancelEdit
  | ready

/-- The editor's module-level mutable state (editor.js top of file).
W and H are the shared pixel dimensions of the stage canvas and of the
mask, offscreen and stroke canvases (resizeCanvases always sets all four
to the same size). -/
structure EditorState where
  originalImg : Option Img
  cutoutImg : Option Img
  bgImg : Option Img
  maskCanvas : Raster
  offCanvas : Raster
  strokeCanvas : Raster
  canvas : Raster
  W : ℤ
  H : ℤ
  brushSize : ℤ
  mode : Mode
  drawing : Bool
  lastX : ℚ
  lastY : ℚ
  hoverX : Option ℚ
  hoverY : Option ℚ
  consoleErrors : List String

/-- Module initial state: no images, 300x150 default canvases (cleared),
brushSize 40, mode erase, not drawing. -/
def initialState : EditorState :=
  { originalImg := none, cutoutImg := none, bgImg := none,
    maskCanvas := blankRaster, offCanvas := blankRaster,
    strokeCanvas := blankRaster, canvas := blankRaster,
    W := 300, H := 150, brushSize := 40, mode := Mode.erase,
    drawing := false, lastX := 0, lastY := 0,
    hoverX := none, hoverY := none, consoleErrors := [] }

/-- JavaScript ToInt32 (the n|0 coercion) for an integral input. -/
def toInt32 (n : ℤ) : ℤ := (n + 2 ^ 31) % 2 ^ 32 - 2 ^ 31

/-- setBrush from editor.js: brushSize = max(1, min(400, size|0)). -/
def setBrush (size : ℤ) (s : EditorState) : EditorState :=
  { s with brushSize := max 1 (min 400 (toInt32 size)) }

/-- The brush slider's minimum in the editor HTML (extension.js). -/
def brushSliderMin : ℤ := 3

/-- The brush slider's maximum in the editor HTML (extension.js). -/
def brushSliderMax : ℤ := 200

/-- The brush slider's initial value in the editor HTML (extension.js). -/
def brushSliderDefault : ℤ := 40

/-- setMode from editor.js (the button class toggles are DOM-only). -/
def setModeFn (m : Mode) (s : EditorState) : EditorState := { s with mode := m }

/-- drawStroke from editor.js: paint the round-capped segment from
(x0,y0) to (x1,y1) at the current brush width in fully opaque white,
source-over, into the stroke canvas. -/
def drawStroke (s : EditorState) (x0 y0 x1 y1 : ℚ) : EditorState :=
  { s with strokeCanvas := fun x y =>
      if inCapsule x0 y0 x1 y1 ((s.brushSize : ℚ) / 2) x y then Pixel.white
      else s.strokeCanvas x y }

/-- The semi-transparent dark tint rgba(0,0,0,0.35), premultiplied. -/
def tintPixel : Pixel := ⟨0, 0, 0, 7/20⟩

/-- One checkerboard cell color choice: isDark = ((x/16)+(y/16)) % 2 == 0
on the 16-pixel block containing the pixel. -/
def checkDark (x y : ℤ) : Bool := (x / 16 + y / 16) % 2 == 0

/-- drawCheckerboard from editor.js: the fillRect loop paints 16x16 blocks
whose origins range over [0, w) x [0, h), so the painted region extends to
the block boundaries 16 * ceil(w/16) and 16 * ceil(h/16). -/
def checkerboardOver (w h : ℤ) (dst : Raster) : Raster :=
  fun x y =>
    if 0 ≤ x ∧ x < 16 * ((w + 15) / 16) ∧ 0 ≤ y ∧ y < 16 * ((h + 15) / 16) then
      (if checkDark x y then ⟨224/255, 224/255, 224/255, 1⟩ else Pixel.white)
    else dst x y

/-- composeAndRender steps 1-3 (editor.js lines 96-118): clear the stage,
draw the background cover-scaled (or the checkerboard), fill the tint,
knock the tint out where the mask has alpha, and while drawing in restore
mode also knock it out where the stroke buffer has alpha. -/
def previewFrame (s : EditorState) : Raster :=
  let frame1 : Raster :=
    match s.bgImg with
    | some bg =>
        let c := coverRect (bg.w : ℚ) (bg.h : ℚ) (s.W : ℚ) (s.H : ℚ)
        drawImageRect bg c.dx c.dy c.dw c.dh blankRaster
    | none => checkerboardOver s.W s.H blankRaster
  let frame2 : Raster := fun x y =>
    pdDestOut (s.maskCanvas x y) (pdSourceOver tintPixel (frame1 x y))
  if s.drawing = true ∧ s.mode = Mode.restore then
    fun x y => pdDestOut (s.strokeCanvas x y) (frame2 x y)
  else frame2

/-- composeAndRender steps 4-5 (editor.js lines 122-150): the offscreen
scratch = original clipped to the mask with destination-in, then while
drawing either punched out by the stroke (erase) or overlaid with the
original clipped to the stroke (restore, via a temporary canvas). -/
def offComposite (s : EditorState) (orig : Img) : Raster :=
  let off1 : Raster := fun x y =>
    pdDestIn (s.maskCanvas x y)
      (drawImageRect orig 0 0 (s.W : ℚ) (s.H : ℚ) blankRaster x y)
  if s.drawing then
    match s.mode with
    | Mode.erase => fun x y => pdDestOut (s.strokeCanvas x y) (off1 x y)
    | Mode.restore =>
        let tmp : Raster := fun x y =>
          pdDestIn (s.strokeCanvas x y)
            (drawImageRect orig 0 0 (s.W : ℚ) (s.H : ℚ) blankRaster x y)
        fun x y => pdSourceOver (tmp x y) (off1 x y)
  else off1

/-- The original composeAndRender body (editor.js lines 94-156): builds the
preview frame; if the original image is not loaded yet it returns after the
tint stage, otherwise it rebuilds the offscreen scratch and draws it over
the frame. Only the stage canvas and the offscreen canvas are written. -/
def composeBase (s : EditorState) : EditorState :=
  match s.originalImg with
  | none => { s with canvas := previewFrame s }
  | some orig =>
      { s with
        canvas := fun x y =>
          pdSourceOver (offComposite s orig x y) (previewFrame s x y),
        offCanvas := offComposite s orig }

/-- The hover cursor color: the mode hue at globalAlpha 0.2, premultiplied
(#ff0000 for erase, #00aa00 for restore). -/
def hoverColor (m : Mode) : Pixel :=
  match m with
  | Mode.erase => ⟨1/5, 0, 0, 1/5⟩
  | Mode.restore => ⟨0, 2/15, 0, 1/5⟩

/-- The patched composeAndRender (editor.js lines 301-313): run the base
compositor, then if a hover position is known draw the translucent brush
circle of radius brushSize/2 on top of the stage canvas. -/
def composeAndRender (s : EditorState) : EditorState :=
  let s1 := composeBase s
  match s1.hoverX, s1.hoverY with
  | some hx, some hy =>
      { s1 with canvas := fun x y =>
          if inCircle hx hy ((s1.brushSize : ℚ) / 2) x y then
            pdSourceOver (hoverColor s1.mode) (s1.canvas x y)
          else s1.canvas x y }
  | _, _ => s1

/-- pointerdown handler: no-op until the original image is loaded;
otherwise start a gesture, clear the stroke buffer, draw the initial dot
and re-render. -/
def pointerdown (px py : ℚ) (s : EditorState) : EditorState :=
  match s.originalImg with
  | none => s
  | some _ =>
      let s1 := { s with drawing := true, lastX := px, lastY := py,
                         strokeCanvas := blankRaster }
      composeAndRender (drawStroke s1 px py px py)

/-- First pointermove listener (editor.js line 190): update hover; when not
drawing just re-render, else extend the stroke from the last anchor,
advance the anchor and re-render. -/
def pointermoveA (px py : ℚ) (s : EditorState) : EditorState :=
  let s1 := { s with hoverX := some px, hoverY := some py }
  if s1.drawing then
    composeAndRender
      { drawStroke s1 s1.lastX s1.lastY px py with lastX := px, lastY := py }
  else composeAndRender s1

/-- Second pointermove listener (editor.js line 291): update hover and
re-render only when not drawing. -/
def pointermoveB (px py : ℚ) (s : EditorState) : EditorState :=
  let s1 := { s with hoverX := some px, hoverY := some py }
  if s1.drawing then s1 else composeAndRender s1

/-- A pointermove event runs both registered listeners in order. -/
def pointermove (px py : ℚ) (s : EditorState) : EditorState :=
  pointermoveB px py (pointermoveA px py s)

/-- The mask commit operation applied on gesture release: destination-out
of the stroke buffer in erase mode, source-over in restore mode. -/
def commitMask (m : Mode) (stroke mask : Raster) : Raster :=
  match m with
  | Mode.erase => fun x y => pdDestOut (stroke x y) (mask x y)
  | Mode.restore => fun x y => pdSourceOver (stroke x y) (mask x y)

/-- pointerup handler: if a gesture is active, merge the stroke buffer
into the mask according to the mode, clear the stroke buffer and
re-render (drawing is still true during that render); then clear the
drawing flag. -/
def pointerup (s : EditorState) : EditorState :=
  let s1 :=
    if s.drawing then
      composeAndRender
        { s with maskCanvas := commitMask s.mode s.strokeCanvas s.maskCanvas,
                 strokeCanvas := blankRaster }
    else s
  { s1 with drawing := false }

/-- pointercancel handler (editor.js line 217): only drawing = false. -/
def pointercancel (s : EditorState) : EditorState := { s with drawing := false }

/-- accept handler (editor.js lines 234-261): build the flat output on a
fresh canvas with no checkerboard: optional cover-scaled background, then
the original clipped to the committed mask drawn over it; encode as PNG
and post it to the host. Returns none (no message) when the original is
not loaded. -/
def acceptHandler (s : EditorState) : Option HostMsg :=
  match s.originalImg with
  | none => none
  | some orig =>
      let out0 : Raster := blankRaster
      let out1 : Raster :=
        match s.bgImg with
        | some bg =>
            let c := coverRect (bg.w : ℚ) (bg.h : ℚ) (s.W : ℚ) (s.H : ℚ)
            drawImageRect bg c.dx c.dy c.dw c.dh out0
        | none => out0
      let masked : Raster := fun x y =>
        pdDestIn (s.maskCanvas x y)
          (drawImageRect orig 0 0 (s.W : ℚ) (s.H : ℚ) blankRaster x y)
      let out2 : Raster := fun x y => pdSourceOver (masked x y) (out1 x y)
      some (HostMsg.acceptPngDataUrl (encodePNG out2))

/-- resizeCanvases: setting a canvas width/height resets its bitmap, so
all four buffers come out cleared at the new shared size. -/
def resizeCanvases (w h : ℤ) (s : EditorState) : EditorState :=
  { s with W := w, H := h, canvas := blankRaster, maskCanvas := blankRaster,
           offCanvas := blankRaster, strokeCanvas := blankRaster }

/-- init message handler (editor.js lines 274-286), with each decode
modelled by its outcome. The original is awaited and assigned first; if
the cutout decode then fails the catch block only logs to the webview
console, leaving originalImg assigned and posting nothing to the host.
On success: resize to the cutout's dimensions, seed the mask from the
cutout, reset mode to erase and the brush to the slider value (40), and
render. The returned list holds the messages posted to the host. -/
def initHandler (original cutout : Option Img) (s : EditorState) :
    EditorState × List HostMsg :=
  match original with
  | none =>
      ({ s with consoleErrors := s.consoleErrors ++ ["Failed to init images"] },
       [])
  | some o =>
      let s1 := { s with originalImg := some o }
      match cutout with
      | none =>
          ({ s1 with
              consoleErrors := s1.consoleErrors ++ ["Failed to init images"] },
           [])
      | some c =>
          let s2 := { s1 with cutoutImg := some c }
          let s3 := resizeCanvases c.w c.h s2
          let s4 := { s3 with maskCanvas := initMaskFromCutout c c.w c.h }
          let s5 := setModeFn Mode.erase s4
          let s6 := setBrush brushSliderDefault s5
          (composeAndRender s6, [])

/-- Run a list of pointermove samples. -/
def runMoves (ps : List (ℚ × ℚ)) (s : EditorState) : EditorState :=
  ps.foldl (fun t p => pointermove p.1 p.2 t) s

/-- One full gesture: pointerdown, the given move samples, pointerup. -/
def runGesture (s : EditorState) (px py : ℚ) (ps : List (ℚ × ℚ)) :
    EditorState :=
  pointerup (runMoves ps (pointerdown px py s))

/-- The covered area of a raster: pixels with non-zero alpha. -/
def covered (r : Raster) : Set (ℤ × ℤ) := { p | (r p.1 p.2).a ≠ 0 }

/-- A raster every pixel of which is opaque white or fully transparent. -/
def WhiteOrClear (r : Raster) : Prop :=
  ∀ x y : ℤ, r x y = Pixel.white ∨ r x y = Pixel.clear

/-- White premultiplied by an alpha value a: the pixel the mask holds
where the cutout had alpha a. -/
def alphaWhite (a : ℚ) : Pixel := ⟨a, a, a, a⟩

/-- A pixel scaled by an alpha factor (premultiplied clipping). -/
def pixScale (a : ℚ) (p : Pixel) : Pixel := ⟨a * p.r, a * p.g, a * p.b, a * p.a⟩

/-- The background layer of the flattened output, as the spec describes
it: the background cover-scaled onto a transparent canvas when set, fully
transparent (no checkerboard) otherwise. -/
def bgLayer (s : EditorState) : Raster :=
  match s.bgImg with
  | some bg =>
      let c := coverRect (bg.w : ℚ) (bg.h : ℚ) (s.W : ℚ) (s.H : ℚ)
      drawImageRect bg c.dx c.dy c.dw c.dh blankRaster
  | none => blankRaster

/-- The original image layer drawn at canvas size onto a fresh surface. -/
def origLayer (s : EditorState) (orig : Img) : Raster :=
  drawImageRect orig 0 0 (s.W : ℚ) (s.H : ℚ) blankRaster

/-- The flattened output frame as the spec states it: the original clipped
to the committed mask, layered over the background layer. -/
def flattenFrame (s : EditorState) (orig : Img) : Raster :=
  fun x y =>
    pdSourceOver (pdDestIn (s.maskCanvas x y) (origLayer s orig x y))
      (bgLayer s x y)

/-- Witness for the gesture monotonicity theorem at a concrete state. -/
def witnessOrig : Img := ⟨fun _ _ => ⟨1, 0, 0, 1⟩, 1, 1⟩

/-- A ready erase-mode state used to instantiate hypothesis-bearing
theorems. -/
def witnessStateErase : EditorState :=
  { initialState with originalImg := some witnessOrig }

/-- A state in the middle of a gesture whose stroke buffer holds paint,
used to exhibit the pointercancel behavior. -/
def cancelState : EditorState :=
  { initialState with drawing := true,
                      strokeCanvas := fun _ _ => Pixel.white }

/-- A 1x1 cutout whose single pixel is white at alpha one half
(premultiplied), as an anti-aliased cutout edge produces. -/
def cutoutHalf : Img := ⟨fun _ _ => ⟨1/2, 1/2, 1/2, 1/2⟩, 1, 1⟩

/-- A 1x1 fully opaque cutout used to instantiate the mask theorem. -/
def cutoutOpaque : Img := ⟨fun _ _ => ⟨1, 1, 1, 1⟩, 1, 1⟩

/-- A 1x1 fully opaque blue cutout whose color differs from the red
original image witnessOrig. -/
def cutBlue : Img := ⟨fun _ _ => ⟨0, 0, 1, 1⟩, 1, 1⟩

/-! ### Compositor shape lemmas -/

theorem composeBase_shape (s : EditorState) :
    ∃ c o, composeBase s = { s with canvas := c, offCanvas := o } := by
  unfold composeBase
  rcases h : s.originalImg with _ | orig
  · exact ⟨previewFrame s, s.offCanvas, rfl⟩
  · exact ⟨fun x y => pdSourceOver (offComposite s orig x y) (previewFrame s x y),
      offComposite s orig, rfl⟩

theorem composeAndRender_shape (s : EditorState) :
    ∃ c o, composeAndRender s = { s with canvas := c, offCanvas := o } := by
  obtain ⟨c, o, hb⟩ := composeBase_shape s
  unfold composeAndRender
  rw [hb]
  rcases hx : s.hoverX with _ | hx0 <;> rcases hy : s.hoverY with _ | hy0 <;>
    simp only []
  · exact ⟨c, o, rfl⟩
  · exact ⟨c, o, rfl⟩
  · exact ⟨c, o, rfl⟩
  · exact ⟨_, o, rfl⟩

theorem composeAndRender_maskCanvas (s : EditorState) :
    (composeAndRender s).maskCanvas = s.maskCanvas := by
  obtain ⟨c, o, h⟩ := composeAndRender_shape s
  rw [h]

theorem composeAndRender_strokeCanvas (s : EditorState) :
    (composeAndRender s).strokeCanvas = s.strokeCanvas := by
  obtain ⟨c, o, h⟩ := composeAndRender_shape s
  rw [h]

theorem composeAndRender_mode (s : EditorState) :
    (composeAndRender s).mode = s.mode := by
  obtain ⟨c, o, h⟩ := composeAndRender_shape s
  rw [h]

theorem composeAndRender_drawing (s : EditorState) :
    (composeAndRender s).drawing = s.drawing := by
  obtain ⟨c, o, h⟩ := composeAndRender_shape s
  rw [h]

theorem composeAndRender_originalImg (s : EditorState) :
    (composeAndRender s).originalImg = s.originalImg := by
  obtain ⟨c, o, h⟩ := composeAndRender_shape s
  rw [h]

theorem composeAndRender_bgImg (s : EditorState) :
    (composeAndRender s).bgImg = s.bgImg := by
  obtain ⟨c, o, h⟩ := composeAndRender_shape s
  rw [h]

theorem composeAndRender_W (s : EditorState) :
    (composeAndRender s).W = s.W := by
  obtain ⟨c, o, h⟩ := composeAndRender_shape s
  rw [h]

theorem composeAndRender_H (s : EditorState) :
    (composeAndRender s).H = s.H := by
  obtain ⟨c, o, h⟩ := composeAndRender_shape s
  rw [h]

theorem composeAndRender_brushSize (s : EditorState) :
    (composeAndRender s).brushSize = s.brushSize := by
  obtain ⟨c, o, h⟩ := composeAndRender_shape s
  rw [h]

/-- C1: rendering is read-only with respect to committed state: for every
state (in particular during an active gesture in either mode) the patched
composeAndRender leaves the mask canvas and the stroke canvas pixel
identical, and the resulting state differs from the input state at most in
the displayed stage canvas and the offscreen compositing scratch. -/
theorem render_readonly_on_committed_state (s : EditorState) :
    (composeAndRender s).maskCanvas = s.maskCanvas ∧
    (composeAndRender s).strokeCanvas = s.strokeCanvas ∧
    composeAndRender s =
      { s with canvas := (composeAndRender s).canvas,
               offCanvas := (composeAndRender s).offCanvas } := by
  obtain ⟨c, o, h⟩ := composeAndRender_shape s
  refine ⟨?_, ?_, ?_⟩ <;> rw [h]

/-! ### Handler preservation lemmas -/

theorem drawStroke_strokeCanvas (s : EditorState) (x0 y0 x1 y1 : ℚ) :
    (drawStroke s x0 y0 x1 y1).strokeCanvas = fun x y =>
      if inCapsule x0 y0 x1 y1 ((s.brushSize : ℚ) / 2) x y then Pixel.white
      else s.strokeCanvas x y := rfl

theorem drawStroke_bin (s : EditorState) (x0 y0 x1 y1 : ℚ)
    (h : WhiteOrClear s.strokeCanvas) :
    WhiteOrClear (drawStroke s x0 y0 x1 y1).strokeCanvas := by
  intro x y
  rw [drawStroke_strokeCanvas]
  dsimp only
  split
  · exact Or.inl rfl
  · exact h x y

theorem pointermoveA_maskCanvas (px py : ℚ) (s : EditorState) :
    (pointermoveA px py s).maskCanvas = s.maskCanvas := by
  unfold pointermoveA
  by_cases hd : s.drawing = true <;>
    simp [hd, composeAndRender_maskCanvas, drawStroke]

theorem pointermoveA_mode (px py : ℚ) (s : EditorState) :
    (pointermoveA px py s).mode = s.mode := by
  unfold pointermoveA
  by_cases hd : s.drawing = true <;>
    simp [hd, composeAndRender_mode, drawStroke]

theorem pointermoveA_drawing (px py : ℚ) (s : EditorState) :
    (pointermoveA px py s).drawing = s.drawing := by
  unfold pointermoveA
  by_cases hd : s.drawing = true <;>
    simp [hd, composeAndRender_drawing, drawStroke]

theorem pointermoveA_strokeCanvas (px py : ℚ) (s : EditorState) :
    (pointermoveA px py s).strokeCanvas =
      if s.drawing then
        fun x y =>
          if inCapsule s.lastX s.lastY px py ((s.brushSize : ℚ) / 2) x y then
            Pixel.white
          else s.strokeCanvas x y
      else s.strokeCanvas := by
  obtain ⟨oi, ci, bi, mc, oc, sc, cv, W0, H0, bs, md, dr, lx, ly, hx, hy, ce⟩ := s
  unfold pointermoveA
  cases dr <;> simp [composeAndRender_strokeCanvas, drawStroke]

theorem pointermoveA_stroke_bin (px py : ℚ) (s : EditorState)
    (h : WhiteOrClear s.strokeCanvas) :
    WhiteOrClear (pointermoveA px py s).strokeCanvas := by
  intro x y
  rw [pointermoveA_strokeCanvas]
  by_cases hd : s.drawing = true
  · rw [if_pos hd]
    split
    · exact Or.inl rfl
    · exact h x y
  · rw [if_neg hd]
    exact h x y

theorem pointermoveB_shape (px py : ℚ) (s : EditorState) :
    ∃ c o, pointermoveB px py s =
      { s with hoverX := some px, hoverY := some py, canvas := c,
               offCanvas := o } := by
  obtain ⟨oi, ci, bi, mc, oc, sc, cv, W0, H0, bs, md, dr, lx, ly, hx, hy, ce⟩ := s
  unfold pointermoveB
  cases dr
  · obtain ⟨c, o, h⟩ := composeAndRender_shape
      { originalImg := oi, cutoutImg := ci, bgImg := bi, maskCanvas := mc,
        offCanvas := oc, strokeCanvas := sc, canvas := cv, W := W0, H := H0,
        brushSize := bs, mode := md, drawing := false, lastX := lx, lastY := ly,
        hoverX := some px, hoverY := some py, consoleErrors := ce }
    simp only [Bool.false_eq_true, if_false]
    exact ⟨c, o, h⟩
  · exact ⟨cv, oc, by simp⟩

theorem pointermove_maskCanvas (px py : ℚ) (s : EditorState) :
    (pointermove px py s).maskCanvas = s.maskCanvas := by
  unfold pointermove
  obtain ⟨c, o, h⟩ := pointermoveB_shape px py (pointermoveA px py s)
  rw [h]
  exact pointermoveA_maskCanvas px py s

theorem pointermove_mode (px py : ℚ) (s : EditorState) :
    (pointermove px py s).mode = s.mode := by
  unfold pointermove
  obtain ⟨c, o, h⟩ := pointermoveB_shape px py (pointermoveA px py s)
  rw [h]
  exact pointermoveA_mode px py s

theorem pointermove_drawing (px py : ℚ) (s : EditorState) :
    (pointermove px py s).drawing = s.drawing := by
  unfold pointermove
  obtain ⟨c, o, h⟩ := pointermoveB_shape px py (pointermoveA px py s)
  rw [h]
  exact pointermoveA_drawing px py s

theorem pointermove_stroke_bin (px py : ℚ) (s : EditorState)
    (h : WhiteOrClear s.strokeCanvas) :
    WhiteOrClear (pointermove px py s).strokeCanvas := by
  unfold pointermove
  obtain ⟨c, o, hB⟩ := pointermoveB_shape px py (pointermoveA px py s)
  rw [hB]
  exact pointermoveA_stroke_bin px py s h

/-- The invariant holding from pointerdown through all pointermove samples
of one gesture: the committed mask, and the mode, are untouched; the
gesture is active; the stroke buffer holds only opaque white or fully
transparent pixels. -/
def GestureInv (s0 t : EditorState) : Prop :=
  t.maskCanvas = s0.maskCanvas ∧ t.mode = s0.mode ∧ t.drawing = true ∧
    WhiteOrClear t.strokeCanvas

theorem pointerdown_inv (px py : ℚ) (s : EditorState) (orig : Img)
    (h : s.originalImg = some orig) :
    GestureInv s (pointerdown px py s) := by
  unfold pointerdown
  rw [h]
  refine ⟨?_, ?_, ?_, ?_⟩
  · rw [composeAndRender_maskCanvas]
    rfl
  · rw [composeAndRender_mode]
    rfl
  · rw [composeAndRender_drawing]
    rfl
  · intro x y
    rw [composeAndRender_strokeCanvas]
    dsimp [drawStroke]
    split
    · exact Or.inl rfl
    · exact Or.inr rfl

theorem pointermove_inv (px py : ℚ) (s0 t : EditorState)
    (h : GestureInv s0 t) : GestureInv s0 (pointermove px py t) := by
  obtain ⟨hm, hmd, hd, hb⟩ := h
  refine ⟨?_, ?_, ?_, ?_⟩
  · rw [pointermove_maskCanvas]
    exact hm
  · rw [pointermove_mode]
    exact hmd
  · rw [pointermove_drawing]
    exact hd
  · exact pointermove_stroke_bin px py t hb

theorem runMoves_inv (ps : List (ℚ × ℚ)) (s0 t : EditorState)
    (h : GestureInv s0 t) : GestureInv s0 (runMoves ps t) := by
  induction ps generalizing t with
  | nil => exact h
  | cons p ps ih =>
      exact ih (pointermove p.1 p.2 t) (pointermove_inv p.1 p.2 s0 t h)

theorem pointerup_maskCanvas_of_drawing (t : EditorState)
    (hd : t.drawing = true) :
    (pointerup t).maskCanvas = commitMask t.mode t.strokeCanvas t.maskCanvas := by
  unfold pointerup
  rw [if_pos hd, composeAndRender_maskCanvas]

/-! ### Covered-area lemmas -/

theorem destOut_alpha_ne_zero (sp dp : Pixel)
    (h : (pdDestOut sp dp).a ≠ 0) : dp.a ≠ 0 := by
  intro h0
  apply h
  simp [pdDestOut, h0]

theorem sourceOver_alpha_ne_zero (sp dp : Pixel)
    (hb : sp = Pixel.white ∨ sp = Pixel.clear) (h : dp.a ≠ 0) :
    (pdSourceOver sp dp).a ≠ 0 := by
  rcases hb with hw | hc
  · simp [pdSourceOver, hw, Pixel.white]
  · simpa [pdSourceOver, hc, Pixel.clear] using h

/-- C2: for every sequence of pointermove samples within one gesture that
begins while the session holds a loaded original image, releasing the
gesture in erase mode never enlarges the mask's covered area (pixels of
non-zero alpha), and releasing it in restore mode never shrinks it. -/
theorem gesture_commit_monotone (s : EditorState) (orig : Img)
    (hready : s.originalImg = some orig) (px py : ℚ) (ps : List (ℚ × ℚ)) :
    (s.mode = Mode.erase →
      covered (runGesture s px py ps).maskCanvas ⊆ covered s.maskCanvas) ∧
    (s.mode = Mode.restore →
      covered s.maskCanvas ⊆ covered (runGesture s px py ps).maskCanvas) := by
  have hinv : GestureInv s (runMoves ps (pointerdown px py s)) :=
    runMoves_inv ps s (pointerdown px py s) (pointerdown_inv px py s orig hready)
  obtain ⟨hm, hmd, hd, hb⟩ := hinv
  have hmask : (runGesture s px py ps).maskCanvas =
      commitMask s.mode (runMoves ps (pointerdown px py s)).strokeCanvas
        s.maskCanvas := by
    unfold runGesture
    rw [pointerup_maskCanvas_of_drawing _ hd, hmd, hm]
  constructor
  · intro he p hp
    rw [hmask, he] at hp
    exact destOut_alpha_ne_zero _ _ hp
  · intro hr p hp
    rw [hmask, hr]
    exact sourceOver_alpha_ne_zero _ _ (hb p.1 p.2) hp

theorem gesture_commit_monotone_witness :
    covered (runGesture witnessStateErase 0 0 []).maskCanvas ⊆
      covered witnessStateErase.maskCanvas :=
  (gesture_commit_monotone witnessStateErase witnessOrig rfl 0 0 []).1 rfl

/-- C6: committing one completed stroke buffer twice in the same mode has
no effect beyond the first commit, for every mask state. A completed
stroke buffer holds only fully opaque white or fully transparent pixels
(the invariant GestureInv establishes for every gesture), so an erased
pixel is already at alpha 0 and a restored pixel already at alpha 1. -/
theorem commit_idempotent (stroke mask : Raster)
    (hb : WhiteOrClear stroke) (m : Mode) :
    commitMask m stroke (commitMask m stroke mask) =
      commitMask m stroke mask := by
  funext x y
  rcases hb x y with hw | hc
  · cases m <;>
      simp [commitMask, pdDestOut, pdSourceOver, hw, Pixel.white, Pixel.clear]
  · cases m <;>
      simp [commitMask, pdDestOut, pdSourceOver, hc, Pixel.white, Pixel.clear]

theorem commit_idempotent_witness :
    commitMask Mode.erase (fun _ _ => Pixel.white)
        (commitMask Mode.erase (fun _ _ => Pixel.white) blankRaster) =
      commitMask Mode.erase (fun _ _ => Pixel.white) blankRaster :=
  commit_idempotent (fun _ _ => Pixel.white) blankRaster
    (fun _ _ => Or.inl rfl) Mode.erase

/-! ### Stroke buffer lifecycle -/

/-- Counterexample to C5 as stated: a pointercancel received mid-gesture
leaves the stroke buffer exactly as it was, so immediately after the
cancellation the buffer still holds an opaque white pixel. -/
theorem cancel_leaves_stroke_counterexample :
    (pointercancel cancelState).drawing = false ∧
    (pointercancel cancelState).strokeCanvas 0 0 = Pixel.white ∧
    Pixel.white ≠ Pixel.clear := by
  refine ⟨rfl, rfl, ?_⟩
  decide

/-- C5 (amended): the stroke buffer is fully cleared immediately after
every commit (gesture release); a pointercancel only resets the gesture
flag and leaves the stroke buffer's content in place (it is cleared again
only when the next gesture begins). -/
theorem strokebuffer_lifecycle (s : EditorState) :
    (s.drawing = true → (pointerup s).strokeCanvas = blankRaster) ∧
    (pointercancel s).strokeCanvas = s.strokeCanvas ∧
    (pointercancel s).drawing = false := by
  refine ⟨?_, rfl, rfl⟩
  intro hd
  unfold pointerup
  rw [if_pos hd, composeAndRender_strokeCanvas]

theorem strokebuffer_lifecycle_witness :
    (pointerup cancelState).strokeCanvas = blankRaster :=
  (strokebuffer_lifecycle cancelState).1 rfl

/-- C10: a gesture's pointerdown clears the stroke buffer before painting
the initial dot, so the buffer afterwards is exactly the dot's capsule on
a transparent ground, independent of whatever content a previous gesture
(for example one ended by pointercancel) left behind. -/
theorem pointerdown_resets_stroke (px py : ℚ) (s : EditorState) (orig : Img)
    (h : s.originalImg = some orig) :
    (pointerdown px py s).strokeCanvas = fun x y =>
      if inCapsule px py px py ((s.brushSize : ℚ) / 2) x y then Pixel.white
      else Pixel.clear := by
  unfold pointerdown
  rw [h]
  rw [composeAndRender_strokeCanvas]
  funext x y
  simp [drawStroke, blankRaster]

theorem pointerdown_resets_stroke_witness :
    (pointerdown 0 0 witnessStateErase).strokeCanvas = fun x y =>
      if inCapsule 0 0 0 0 ((witnessStateErase.brushSize : ℚ) / 2) x y then
        Pixel.white
      else Pixel.clear :=
  pointerdown_resets_stroke 0 0 witnessStateErase witnessOrig rfl

/-- C8: setBrush clamps every integral input to the range [1, 400]; the
input 500 stores exactly 400; the module default brush size is 40; and
the UI slider only exposes the narrower range [3, 200] with initial
value 40. -/
theorem brush_diameter_clamped (s : EditorState) (n : ℤ) :
    1 ≤ (setBrush n s).brushSize ∧ (setBrush n s).brushSize ≤ 400 ∧
    (setBrush 500 s).brushSize = 400 ∧
    initialState.brushSize = 40 ∧
    brushSliderMin = 3 ∧ brushSliderMax = 200 ∧ brushSliderDefault = 40 := by
  refine ⟨?_, ?_, ?_, rfl, rfl, rfl, rfl⟩
  · exact le_max_left 1 (min 400 (toInt32 n))
  · exact max_le (by norm_num) (min_le_left 400 (toInt32 n))
  · show max 1 (min 400 (toInt32 500)) = 400
    decide

/-! ### Identity sampling and mask initialization -/

theorem floor_add_half (x : ℤ) : ⌊(x : ℚ) + 1/2⌋ = x := by
  rw [Int.floor_int_add]
  norm_num

theorem sampleCover_identity (img : Img) (W H : ℤ) (hW : img.w = W)
    (hH : img.h = H) (x y : ℤ) (hx0 : 0 ≤ x) (hx1 : x < W) (hy0 : 0 ≤ y)
    (hy1 : y < H) :
    sampleCover img 0 0 (W : ℚ) (H : ℚ) x y = img.pix x y := by
  have hWpos : 0 < W := lt_of_le_of_lt hx0 hx1
  have hHpos : 0 < H := lt_of_le_of_lt hy0 hy1
  have hWQ : (W : ℚ) ≠ 0 := by exact_mod_cast hWpos.ne.symm
  have hHQ : (H : ℚ) ≠ 0 := by exact_mod_cast hHpos.ne.symm
  unfold sampleCover
  rw [if_pos]
  · rw [hW, hH]
    have ex : ((x : ℚ) + 1/2 - 0) * (W : ℚ) / (W : ℚ) = (x : ℚ) + 1/2 := by
      rw [sub_zero, mul_div_assoc, div_self hWQ, mul_one]
    have ey : ((y : ℚ) + 1/2 - 0) * (H : ℚ) / (H : ℚ) = (y : ℚ) + 1/2 := by
      rw [sub_zero, mul_div_assoc, div_self hHQ, mul_one]
    rw [ex, ey, floor_add_half, floor_add_half]
  · have cx0 : (0 : ℚ) ≤ (x : ℚ) + 1/2 := by
      have : (0 : ℚ) ≤ (x : ℚ) := by exact_mod_cast hx0
      linarith
    have cx1 : (x : ℚ) + 1/2 < 0 + (W : ℚ) := by
      have : (x : ℚ) + 1 ≤ (W : ℚ) := by exact_mod_cast hx1
      linarith
    have cy0 : (0 : ℚ) ≤ (y : ℚ) + 1/2 := by
      have : (0 : ℚ) ≤ (y : ℚ) := by exact_mod_cast hy0
      linarith
    have cy1 : (y : ℚ) + 1/2 < 0 + (H : ℚ) := by
      have : (y : ℚ) + 1 ≤ (H : ℚ) := by exact_mod_cast hy1
      linarith
    exact ⟨cx0, cx1, cy0, cy1⟩

theorem initMask_pixel (c : Img) (x y : ℤ) (hx0 : 0 ≤ x) (hx1 : x < c.w)
    (hy0 : 0 ≤ y) (hy1 : y < c.h) :
    initMaskFromCutout c c.w c.h x y = alphaWhite ((c.pix x y).a) := by
  unfold initMaskFromCutout drawImageRect
  rw [sampleCover_identity c c.w c.h rfl rfl x y hx0 hx1 hy0 hy1]
  simp [pdSourceOver, pdSourceIn, blankRaster, Pixel.clear, Pixel.white,
    alphaWhite]

/-! ### Mask pixel population -/

theorem commit_whiteOrClear (st m : Raster) (hst : WhiteOrClear st)
    (hm : WhiteOrClear m) (md : Mode) : WhiteOrClear (commitMask md st m) := by
  intro x y
  rcases hst x y with h1 | h1 <;> rcases hm x y with h2 | h2 <;> cases md <;>
    simp [commitMask, pdDestOut, pdSourceOver, h1, h2, Pixel.white, Pixel.clear]

/-- Counterexample to C4 as stated: seeding the mask from a cutout with a
semi-transparent pixel leaves that mask pixel at the cutout's alpha (the
source-in white fill keeps the cutout's alpha channel), producing a pixel
that is neither fully opaque white nor fully transparent. -/
theorem mask_binary_counterexample :
    (cutoutHalf.pix 0 0).a ≠ 0 ∧
    initMaskFromCutout cutoutHalf 1 1 0 0 ≠ Pixel.white ∧
    (initMaskFromCutout cutoutHalf 1 1 0 0).a ≠ 0 := by
  have h : initMaskFromCutout cutoutHalf 1 1 0 0 =
      alphaWhite ((cutoutHalf.pix 0 0).a) :=
    initMask_pixel cutoutHalf 0 0 (by decide) (by decide) (by decide) (by decide)
  refine ⟨?_, ?_, ?_⟩
  · show (1/2 : ℚ) ≠ 0
    norm_num
  · rw [h]
    show alphaWhite (1/2) ≠ Pixel.white
    simp only [alphaWhite, Pixel.white, ne_eq, Pixel.mk.injEq, not_and]
    norm_num
  · rw [h]
    show (1/2 : ℚ) ≠ 0
    norm_num

/-- C4 (amended): initialization copies the Cutout's alpha channel into
the mask with white color — each in-canvas mask pixel is white
premultiplied by the cutout's alpha, so the mask's covered region equals
the cutout's non-transparent region and the mask is opaque white exactly
where the cutout is fully opaque, but a semi-transparent cutout pixel
yields the same intermediate alpha in the mask. Both erase and restore
commits preserve the opaque-white-or-transparent property whenever the
mask and the completed stroke buffer have it. -/
theorem mask_population (c : Img) (x y : ℤ) (hx0 : 0 ≤ x) (hx1 : x < c.w)
    (hy0 : 0 ≤ y) (hy1 : y < c.h) (m st : Raster) (hm : WhiteOrClear m)
    (hst : WhiteOrClear st) (md : Mode) :
    initMaskFromCutout c c.w c.h x y = alphaWhite ((c.pix x y).a) ∧
    ((initMaskFromCutout c c.w c.h x y).a ≠ 0 ↔ (c.pix x y).a ≠ 0) ∧
    WhiteOrClear (commitMask md st m) := by
  have h := initMask_pixel c x y hx0 hx1 hy0 hy1
  refine ⟨h, ?_, commit_whiteOrClear st m hst hm md⟩
  rw [h]
  exact Iff.rfl

theorem mask_population_witness :
    initMaskFromCutout cutoutOpaque 1 1 0 0 =
      alphaWhite ((cutoutOpaque.pix 0 0).a) ∧
    ((initMaskFromCutout cutoutOpaque 1 1 0 0).a ≠ 0 ↔
      (cutoutOpaque.pix 0 0).a ≠ 0) ∧
    WhiteOrClear (commitMask Mode.erase (fun _ _ => Pixel.white) blankRaster) := by
  exact mask_population cutoutOpaque 0 0 (by decide) (by decide) (by decide)
    (by decide) blankRaster (fun _ _ => Pixel.white)
    (fun _ _ => Or.inr rfl) (fun _ _ => Or.inl rfl) Mode.erase

/-! ### Flattening -/

theorem acceptHandler_eq (s : EditorState) (orig : Img)
    (h : s.originalImg = some orig) :
    acceptHandler s =
      some (HostMsg.acceptPngDataUrl (encodePNG (flattenFrame s orig))) := by
  unfold acceptHandler flattenFrame bgLayer origLayer
  rw [h]

/-- C3: the accept action posts to the host exactly a PNG-encoded frame
equal, pixel for pixel, to the original image (scaled to the canvas)
clipped to the committed mask and layered over the cover-scaled background
when one is set and over full transparency (no checkerboard) otherwise;
the result depends only on the original, the mask, the background and the
canvas size — two states agreeing on those (whatever their stroke buffer,
gesture flag, hover position, mode or brush) produce the same message. -/
theorem flatten_committed_only (s : EditorState) (orig : Img)
    (h : s.originalImg = some orig) :
    acceptHandler s =
      some (HostMsg.acceptPngDataUrl (encodePNG (flattenFrame s orig))) ∧
    (∀ x y : ℤ, flattenFrame s orig x y =
      pdSourceOver (pdDestIn (s.maskCanvas x y) (origLayer s orig x y))
        (bgLayer s x y)) ∧
    (∀ s2 : EditorState, s2.originalImg = s.originalImg →
      s2.maskCanvas = s.maskCanvas → s2.bgImg = s.bgImg → s2.W = s.W →
      s2.H = s.H → acceptHandler s2 = acceptHandler s) := by
  refine ⟨acceptHandler_eq s orig h, fun x y => rfl, ?_⟩
  intro s2 ho hm hb hW hH
  unfold acceptHandler
  rw [ho, h, hm, hb, hW, hH]

theorem flatten_committed_only_witness :
    acceptHandler witnessStateErase =
      some (HostMsg.acceptPngDataUrl
        (encodePNG (flattenFrame witnessStateErase witnessOrig))) :=
  (flatten_committed_only witnessStateErase witnessOrig rfl).1

/-! ### Session initialization -/

theorem initHandler_maskCanvas (o c : Img) (s : EditorState) :
    (initHandler (some o) (some c) s).1.maskCanvas =
      initMaskFromCutout c c.w c.h := by
  show (composeAndRender _).maskCanvas = _
  rw [composeAndRender_maskCanvas]
  rfl

theorem initHandler_originalImg (o c : Img) (s : EditorState) :
    (initHandler (some o) (some c) s).1.originalImg = some o := by
  show (composeAndRender _).originalImg = _
  rw [composeAndRender_originalImg]
  rfl

theorem initHandler_bgImg (o c : Img) (s : EditorState) :
    (initHandler (some o) (some c) s).1.bgImg = s.bgImg := by
  show (composeAndRender _).bgImg = _
  rw [composeAndRender_bgImg]
  rfl

theorem initHandler_W (o c : Img) (s : EditorState) :
    (initHandler (some o) (some c) s).1.W = c.w := by
  show (composeAndRender _).W = _
  rw [composeAndRender_W]
  rfl

theorem initHandler_H (o c : Img) (s : EditorState) :
    (initHandler (some o) (some c) s).1.H = c.h := by
  show (composeAndRender _).H = _
  rw [composeAndRender_H]
  rfl

theorem pdSourceOver_clear_right (p : Pixel) : pdSourceOver p Pixel.clear = p := by
  cases p
  simp [pdSourceOver, Pixel.clear]

theorem pdDestIn_alphaWhite (a : ℚ) (p : Pixel) :
    pdDestIn (alphaWhite a) p = pixScale a p := by
  cases p
  simp [pdDestIn, alphaWhite, pixScale, mul_comm]

/-- C7 (amended): initializing a session and flattening immediately, with
no gestures, reproduces the original image clipped to the Cutout's alpha
coverage, composited over the background (or over full transparency when
none is set). When the Cutout relates to the Image as the spec's data
model prescribes — the Cutout is the Image with its alpha replaced by the
foreground coverage, i.e. each premultiplied cutout pixel equals the
original pixel scaled by the cutout's alpha — this equals the Cutout
composited over the background; for a Cutout whose visible colors differ
from the Image the flattened output shows the Image's colors, not the
Cutout's. -/
theorem init_flatten_roundtrip (o c : Img) (s0 : EditorState)
    (hw : o.w = c.w) (hh : o.h = c.h)
    (hagree : ∀ u v : ℤ, c.pix u v = pixScale ((c.pix u v).a) (o.pix u v))
    (x y : ℤ) (hx0 : 0 ≤ x) (hx1 : x < c.w) (hy0 : 0 ≤ y) (hy1 : y < c.h) :
    acceptHandler (initHandler (some o) (some c) s0).1 =
      some (HostMsg.acceptPngDataUrl (encodePNG
        (flattenFrame (initHandler (some o) (some c) s0).1 o))) ∧
    (initHandler (some o) (some c) s0).1.bgImg = s0.bgImg ∧
    flattenFrame (initHandler (some o) (some c) s0).1 o x y =
      pdSourceOver (c.pix x y)
        (bgLayer (initHandler (some o) (some c) s0).1 x y) := by
  refine ⟨acceptHandler_eq _ o (initHandler_originalImg o c s0),
    initHandler_bgImg o c s0, ?_⟩
  have hmask : (initHandler (some o) (some c) s0).1.maskCanvas x y =
      alphaWhite ((c.pix x y).a) := by
    rw [initHandler_maskCanvas]
    exact initMask_pixel c x y hx0 hx1 hy0 hy1
  have horig : origLayer (initHandler (some o) (some c) s0).1 o x y =
      o.pix x y := by
    unfold origLayer drawImageRect
    rw [initHandler_W, initHandler_H,
      sampleCover_identity o c.w c.h hw hh x y hx0 hx1 hy0 hy1]
    exact pdSourceOver_clear_right (o.pix x y)
  show pdSourceOver
      (pdDestIn ((initHandler (some o) (some c) s0).1.maskCanvas x y)
        (origLayer (initHandler (some o) (some c) s0).1 o x y)) _ = _
  rw [hmask, horig, pdDestIn_alphaWhite, ← hagree x y]

/-- A witness instance for the round-trip theorem: a 1x1 fully opaque
image serving as both original and cutout. -/
theorem init_flatten_roundtrip_witness :
    acceptHandler (initHandler (some cutoutOpaque) (some cutoutOpaque)
        initialState).1 =
      some (HostMsg.acceptPngDataUrl (encodePNG
        (flattenFrame (initHandler (some cutoutOpaque) (some cutoutOpaque)
          initialState).1 cutoutOpaque))) :=
  (init_flatten_roundtrip cutoutOpaque cutoutOpaque initialState rfl rfl
    (fun u v => by simp [cutoutOpaque, pixScale]) 0 0 (by decide) (by decide)
    (by decide) (by decide)).1

/-- Counterexample to C7 as stated: for the red original and the blue
cutout, the flattened output pixel is the original's red, not the blue the
cutout composited over transparency would give, so flatten does not
reproduce the Cutout exactly for every Cutout. -/
theorem roundtrip_exact_cutout_counterexample :
    acceptHandler (initHandler (some witnessOrig) (some cutBlue)
        initialState).1 =
      some (HostMsg.acceptPngDataUrl (encodePNG
        (flattenFrame (initHandler (some witnessOrig) (some cutBlue)
          initialState).1 witnessOrig))) ∧
    flattenFrame (initHandler (some witnessOrig) (some cutBlue)
        initialState).1 witnessOrig 0 0 = ⟨1, 0, 0, 1⟩ ∧
    pdSourceOver (cutBlue.pix 0 0) (blankRaster 0 0) = ⟨0, 0, 1, 1⟩ ∧
    (⟨1, 0, 0, 1⟩ : Pixel) ≠ ⟨0, 0, 1, 1⟩ := by
  refine ⟨acceptHandler_eq _ witnessOrig
    (initHandler_originalImg witnessOrig cutBlue initialState), ?_, ?_, ?_⟩
  · have hmask : (initHandler (some witnessOrig) (some cutBlue)
        initialState).1.maskCanvas 0 0 = alphaWhite 1 := by
      rw [initHandler_maskCanvas]
      exact initMask_pixel cutBlue 0 0 (by decide) (by decide) (by decide)
        (by decide)
    have horig : origLayer (initHandler (some witnessOrig) (some cutBlue)
        initialState).1 witnessOrig 0 0 = ⟨1, 0, 0, 1⟩ := by
      unfold origLayer drawImageRect
      rw [initHandler_W, initHandler_H,
        sampleCover_identity witnessOrig cutBlue.w cutBlue.h rfl rfl 0 0
          (by decide) (by decide) (by decide) (by decide)]
      exact pdSourceOver_clear_right _
    have hbg : bgLayer (initHandler (some witnessOrig) (some cutBlue)
        initialState).1 0 0 = Pixel.clear := by
      unfold bgLayer
      rw [initHandler_bgImg]
      rfl
    show pdSourceOver (pdDestIn _ _) _ = _
    rw [hmask, horig, hbg, pdDestIn_alphaWhite, pdSourceOver_clear_right]
    simp [pixScale]
  · simp [pdSourceOver, cutBlue, blankRaster, Pixel.clear]
  · simp only [ne_eq, Pixel.mk.injEq, not_and]
    norm_num

/-- C9: when decoding the cutout fails after the original decoded, the
init handler leaves originalImg assigned — so the readiness gate every
pointer handler uses passes and a subsequent pointerdown starts a gesture
— posts no message of any kind to the host, and records the failure only
in the webview console log. -/
theorem init_decode_failure_swallowed :
    (initHandler (some witnessOrig) none initialState).1.originalImg =
      some witnessOrig ∧
    (initHandler (some witnessOrig) none initialState).2 = [] ∧
    (initHandler (some witnessOrig) none initialState).1.consoleErrors =
      ["Failed to init images"] ∧
    (pointerdown 5 5 (initHandler (some witnessOrig) none
      initialState).1).drawing = true := by
  refine ⟨rfl, rfl, rfl, ?_⟩
  exact (pointerdown_inv 5 5 _ witnessOrig rfl).2.2.1
